import Mathlib

/-!
# Verification of the todo-task server and client derivations

Shallow embedding of the Express backend (`server/server.js`) and the small
pure client derivations (`src/components/CircularProgress.tsx`,
`calculatePercentage` in the task view) of the todo-task repository.

JS strings are modelled as Lean `String`s; where the code works at the byte
level (the base64 session codec) a string is viewed through `strBytes`, the
list of its character code points (which agrees with the UTF-8 bytes on the
ASCII strings the system uses for ids, timestamps and hex nonces).
JS numbers that the code only ever uses as non-negative integers are `Nat`.
Handlers that can fail return `Except (Nat × String)` carrying the HTTP
status and error message; a handler error means the store file was never
rewritten, so the persistent state stays as it was.
-/

namespace Todo

/-- Code points of a string: the byte view used by the session codec
(`Buffer.from(s)` / `buf.toString()`), exact for ASCII data. -/
def strBytes (s : String) : List Nat := s.data.map Char.toNat

/-- JS `String.prototype.trim()`: strip leading and trailing whitespace
(the ASCII whitespace characters; no other Unicode space occurs in this
system's data). -/
def jsTrim (s : String) : String :=
  ⟨((s.data.dropWhile Char.isWhitespace).reverse.dropWhile Char.isWhitespace).reverse⟩

/-! ## Base64 (`Buffer.toString("base64")` / `Buffer.from(_, "base64")`) -/

/-- The standard base64 alphabet. -/
def b64Alphabet : List Char :=
  "ABCDEFGHIJKLMNOPQRSTUVWXYZabcdefghijklmnopqrstuvwxyz0123456789+/".data

/-- Character for a sextet value. -/
def sextetToChar (n : Nat) : Char := b64Alphabet.getD n '='

/-- Sextet value of an alphabet character (64 for a non-alphabet char). -/
def charToSextet (c : Char) : Nat := b64Alphabet.indexOf c

/-- Bytes to sextets, 3 bytes to 4 sextets, short final group truncated. -/
def encodeChunks : List Nat → List Nat
  | [] => []
  | [a] => [a / 4, a % 4 * 16]
  | [a, b] => [a / 4, a % 4 * 16 + b / 16, b % 16 * 4]
  | a :: b :: c :: rest =>
      a / 4 :: (a % 4 * 16 + b / 16) :: (b % 16 * 4 + c / 64) :: c % 64 ::
        encodeChunks rest

/-- Sextets back to bytes, 4 sextets to 3 bytes, short final group inverted. -/
def decodeChunks : List Nat → List Nat
  | x :: y :: z :: w :: rest =>
      (x * 4 + y / 16) :: (y % 16 * 16 + z / 4) :: (z % 4 * 64 + w) ::
        decodeChunks rest
  | [x, y] => [x * 4 + y / 16]
  | [x, y, z] => [x * 4 + y / 16, y % 16 * 16 + z / 4]
  | _ => []

/-- Base64-encode a byte list, with `'='` padding to a multiple of 4 chars. -/
def b64encodeChars (bytes : List Nat) : List Char :=
  let sextets := encodeChunks bytes
  sextets.map sextetToChar ++ List.replicate ((4 - sextets.length % 4) % 4) '='

/-- Base64-decode a character list, ignoring `'='` padding. -/
def b64decodeChars (tok : List Char) : List Nat :=
  decodeChunks ((tok.filter (fun c => c ≠ '=')).map charToSextet)

/-! ## Session codec (`generateSessionToken`, decode half of `authenticate`) -/

/-- Decimal rendering of a JS number interpolated into a template literal
(`${timestamp}`): digit character codes, most significant first. -/
def natToDecBytes (n : Nat) : List Nat :=
  if _ : n < 10 then [48 + n]
  else natToDecBytes (n / 10) ++ [48 + n % 10]
termination_by n
decreasing_by exact Nat.div_lt_self (by omega) (by omega)

/-- `generateSessionToken`: base64 of `userId:timestamp:randomHex`.  The
current time and the 16 random bytes (as hex-character codes) are inputs. -/
def generateSessionToken (userId : String) (timestamp : Nat)
    (randomHex : List Nat) : List Char :=
  b64encodeChars (strBytes userId ++ (58 :: (natToDecBytes timestamp ++ (58 :: randomHex))))

/-- The decode half used by `authenticate` and `check-session`:
base64-decode, split on `':'` (byte 58), take the first field. -/
def sessionDecodeUserId (tok : List Char) : List Nat :=
  (b64decodeChars tok).takeWhile (fun b => b ≠ 58)

/-! ## Data model -/

/-- A stored (normalized) subtask. -/
structure SubTask where
  id : String
  title : String
  description : String
  completed : Bool
deriving Repr, DecidableEq

/-- A stored task. -/
structure Task where
  id : String
  title : String
  subTasks : List SubTask
  percentage : Nat
  date : String
  time : String
  icon : Option String
deriving Repr, DecidableEq

/-- A stored user record (passwords are stored in plaintext). -/
structure User where
  id : String
  email : String
  password : String
  name : Option String
  tasks : List Task
deriving Repr, DecidableEq

/-! ## Auth gate (`authenticate` middleware) -/

/-- What the `authenticate` middleware does with a request: reject with a
status (recording whether `res.clearCookie("session", ...)` was called)
or attach the found user and proceed. -/
inductive AuthOutcome where
  | reject (status : Nat) (cookieCleared : Bool) (error : String)
  | proceed (user : User)
deriving Repr, DecidableEq

/-- `authenticate`: resolve the (optional) `session` cookie to a user.
`req.cookies?.session` being absent or the empty string is falsy, hence the
`tok.isEmpty` guard mirroring `if (!sessionToken)`. -/
def authenticate (cookie : Option (List Char)) (users : List User) : AuthOutcome :=
  match cookie with
  | none => .reject 401 false "Not authenticated"
  | some tok =>
    if tok.isEmpty then .reject 401 false "Not authenticated"
    else
      let userId := sessionDecodeUserId tok
      if userId.isEmpty then .reject 401 true "Invalid session token"
      else
        match users.find? (fun u => strBytes u.id == userId) with
        | none => .reject 401 true "User not found"
        | some u => .proceed u

/-! ## Response objects (`{ password: _, ...userData }`) -/

/-- A JSON field value as far as the user-shaped responses need. -/
inductive JField where
  | str (s : String)
  | taskList (l : List Task)
deriving Repr, DecidableEq

/-- The JSON object for a stored user record, keys in source order; the
optional `name` key is present only when the record has one. -/
def userObj (u : User) : List (String × JField) :=
  [("id", .str u.id), ("email", .str u.email), ("password", .str u.password)]
    ++ (match u.name with | some n => [("name", .str n)] | none => [])
    ++ [("tasks", .taskList u.tasks)]

/-- Rest destructuring `{ k: _, ...rest }`: drop every field named `k`. -/
def omitField (k : String) (obj : List (String × JField)) :
    List (String × JField) :=
  obj.filter (fun p => p.1 ≠ k)

/-- Spread override `{ ...obj, k: v }` for a key already present in `obj`. -/
def setField (k : String) (v : JField) (obj : List (String × JField)) :
    List (String × JField) :=
  obj.map (fun p => if p.1 = k then (k, v) else p)

/-- `{ ...userData, tasks: userData.tasks || [] }` after
`const { password: _, ...userData } = user` (login and check-session). -/
def responseUser (u : User) : List (String × JField) :=
  setField "tasks" (.taskList u.tasks) (omitField "password" (userObj u))

/-! ## Login and check-session -/

/-- Cookie `maxAge` set at login:
`rememberMe ? 1 * 24 * 60 * 60 * 1000 : undefined` (milliseconds). -/
def loginCookieMaxAgeMs (rememberMe : Bool) : Option Nat :=
  if rememberMe then some (1 * 24 * 60 * 60 * 1000) else none

/-- Result of `POST /api/login`. -/
inductive LoginResult where
  | failure (status : Nat) (error : String)
  | success (cookieToken : List Char) (cookieMaxAge : Option Nat)
      (user : List (String × JField))
deriving Repr, DecidableEq

/-- `POST /api/login`: validate presence of email/password, find the user by
trimmed email and plaintext password, set the session cookie, and answer
with the password-stripped user object. -/
def serverLogin (users : List User) (email password : String) (rememberMe : Bool)
    (timestamp : Nat) (randomHex : List Nat) : LoginResult :=
  if jsTrim email = "" ∨ password = "" then
    .failure 400 "Email and password are required"
  else
    match users.find? (fun u => u.email == jsTrim email && u.password == password) with
    | none => .failure 401 "Invalid credentials"
    | some user =>
        .success (generateSessionToken user.id timestamp randomHex)
          (loginCookieMaxAgeMs rememberMe) (responseUser user)

/-- Result of `GET /api/check-session`: always 200, user or null, and
whether the stale cookie was cleared. -/
inductive SessionCheck where
  | noUser (cookieCleared : Bool)
  | found (user : List (String × JField))
deriving Repr, DecidableEq

/-- `GET /api/check-session`: decode the cookie (if any), look the id up,
answer the password-stripped user or null. -/
def checkSession (cookie : Option (List Char)) (users : List User) : SessionCheck :=
  match cookie with
  | none => .noUser false
  | some tok =>
    if tok.isEmpty then .noUser false
    else
      let userId := sessionDecodeUserId tok
      match users.find? (fun u => strBytes u.id == userId) with
      | none => .noUser true
      | some u => .found (responseUser u)

/-! ## Completion percentage

`Math.round((completedCount / subTasks.length) * 100)` in the `PUT` handler
and in the client's `calculatePercentage`.  JS numbers are IEEE binary64
doubles, so the division and the multiplication each round their exact
result to 53 significant bits (round-to-nearest, ties-to-even), and
`Math.round` then takes the integer nearest to the exact value of the
resulting double, ties toward `+∞`.  The emulation below is exact: a
non-negative double is carried as a dyadic pair `(mant, exp)` whose value
is `mant * 2 ^ exp`. -/

/-- Number of binary digits of `n` (`0` for `0`), written with explicit
fuel so that it is structurally recursive; `n` itself is always enough
fuel. -/
def bitLenAux : Nat → Nat → Nat
  | 0, _ => 0
  | fuel + 1, n => if n = 0 then 0 else bitLenAux fuel (n / 2) + 1

/-- Number of binary digits of `n`, i.e. `⌊log2 n⌋ + 1` for `n > 0`. -/
def bitLen (n : Nat) : Nat := bitLenAux n n

/-- The IEEE binary64 value nearest to `p / q` (round-to-nearest,
ties-to-even; normal range, `q > 0`), as a dyadic pair `(mant, exp)` with
value `mant * 2 ^ exp` and `2^52 ≤ mant ≤ 2^53` (or `mant = 0`). -/
def roundToDouble (p q : Nat) : Nat × Int :=
  let d : Int := (bitLen p : Int) - (bitLen q : Int)
  let ge : Bool :=
    if 0 ≤ d then decide (q * 2 ^ d.toNat ≤ p) else decide (q ≤ p * 2 ^ (-d).toNat)
  let e : Int := if ge then d else d - 1
  let f : Int := e - 52
  let P := if 0 ≤ f then p else p * 2 ^ (-f).toNat
  let Q := if 0 ≤ f then q * 2 ^ f.toNat else q
  let m := P / Q
  let r := P % Q
  let mant :=
    if 2 * r < Q then m
    else if Q < 2 * r then m + 1
    else if m % 2 = 0 then m else m + 1
  (mant, f)

/-- The binary64 product of the double `(mant, exp)` with the exactly
representable constant 100: multiply exactly, round to 53 bits again. -/
def mulDouble100 (d : Nat × Int) : Nat × Int :=
  if 0 ≤ d.2 then roundToDouble (d.1 * 100 * 2 ^ d.2.toNat) 1
  else roundToDouble (d.1 * 100) (2 ^ (-d.2).toNat)

/-- `Math.round` on the double `(mant, exp)`: the integer nearest to its
exact value, ties toward `+∞`, i.e. `⌊mant * 2 ^ exp + 1/2⌋`. -/
def jsRoundDyadic (d : Nat × Int) : Nat :=
  if 0 ≤ d.2 then d.1 * 2 ^ d.2.toNat
  else (2 * d.1 + 2 ^ (-d.2).toNat) / 2 ^ ((-d.2).toNat + 1)

/-- The derived completion percentage of a subtask list (0 when empty):
`Math.round((completedCount / subTasks.length) * 100)` computed the way
the program computes it, through double-precision division and
multiplication. -/
def calculatePercentage (subTasks : List SubTask) : Nat :=
  if subTasks.length = 0 then 0
  else
    let completedCount := (subTasks.filter (fun st => st.completed)).length
    jsRoundDyadic (mulDouble100 (roundToDouble completedCount subTasks.length))

/-- Modelled from the spec's words, for comparison with the code's
`calculatePercentage`: `round(100 * completed_count / total_count)` when
`total_count > 0`, else `0`, with `round` the rounding of the exact
rational. -/
def specPercentage (subTasks : List SubTask) : ℤ :=
  if subTasks.length = 0 then 0
  else
    round ((100 * ((subTasks.filter (fun st => st.completed)).length : ℚ))
      / subTasks.length)

/-! ## Task repository -/

/-- A JS value as far as subtask fields in a `PUT` body need: the
`completed` field may arrive as any JS value and is coerced with `!!`. -/
inductive JVal where
  | jundef
  | jnull
  | jbool (b : Bool)
  | jnum (n : Int)
  | jstr (s : String)
deriving Repr, DecidableEq

/-- JS truthiness, the meaning of `!!v` (`NaN` omitted; every modelled
number is an integer). -/
def JVal.truthy : JVal → Bool
  | .jundef => false
  | .jnull => false
  | .jbool b => b
  | .jnum n => decide (n ≠ 0)
  | .jstr s => !s.isEmpty

/-- A subtask as it may arrive in a `PUT /api/tasks/:id` body: `id`,
`title`, `description` possibly missing, `completed` any JS value. -/
structure RawSubTask where
  id : Option String
  title : Option String
  description : Option String
  completed : JVal
deriving Repr, DecidableEq

/-- One step of the `PUT` handler's normalization map: `st.id ||
crypto.randomUUID()` (the fresh UUID is the `fresh` input),
`st.title?.trim() || ""`, `st.description?.trim() || ""`,
`!!st.completed`. -/
def normalizeSubTask (fresh : String) (st : RawSubTask) : SubTask :=
  { id := match st.id with
      | some s => if s.isEmpty then fresh else s
      | none => fresh
    title := match st.title with
      | some s => jsTrim s
      | none => ""
    description := match st.description with
      | some s => jsTrim s
      | none => ""
    completed := st.completed.truthy }

/-- Normalize a whole subtask list; `freshIds k` is the UUID
`crypto.randomUUID()` would hand the `k`-th element (counting from `i`). -/
def normalizeSubTasks (freshIds : Nat → String) : Nat → List RawSubTask → List SubTask
  | _, [] => []
  | i, st :: rest => normalizeSubTask (freshIds i) st :: normalizeSubTasks freshIds (i + 1) rest

/-- A stored subtask viewed as request data (all fields present, boolean
`completed`): the shape re-normalization sees when the body omits
`subTasks` and `originalTask.subTasks` is used. -/
def SubTask.toRaw (st : SubTask) : RawSubTask :=
  { id := some st.id, title := some st.title, description := some st.description,
    completed := .jbool st.completed }

/-- `x || dflt` for an optional string field (absent or empty falls back). -/
def jsOrDefault (o : Option String) (dflt : String) : String :=
  match o with
  | some s => if s.isEmpty then dflt else s
  | none => dflt

/-- Body of `POST /api/tasks`. -/
structure CreateBody where
  title : String
  date : Option String
  time : Option String
  icon : Option String
deriving Repr, DecidableEq

/-- Body of `PUT /api/tasks/:id` (the fields the spread can merge; an `id`
sent by the client is present here precisely so the handler can be seen to
discard it). -/
structure UpdateBody where
  id : Option String
  title : Option String
  date : Option String
  time : Option String
  icon : Option String
  percentage : Option Nat
  subTasks : Option (List RawSubTask)
deriving Repr, DecidableEq

/-- `GET /api/tasks` composed with the gate's user lookup:
`req.user.tasks || []` for the first user whose id matches the caller's. -/
def serverGetTasks (users : List User) (callerId : String) : List Task :=
  match users.find? (fun u => u.id == callerId) with
  | some u => u.tasks
  | none => []

/-- `POST /api/tasks`: require a non-empty trimmed title, build the new
task (fresh UUID, empty subtasks, percentage 0, caller-or-default
date/time, `icon || undefined`) and append it to the caller's list.
A caller id missing from the store makes `users[-1].tasks` throw, caught
as a 500. -/
def serverCreateTask (users : List User) (callerId : String) (body : CreateBody)
    (freshId todayDate nowTime : String) : Except (Nat × String) (List User × Task) :=
  if jsTrim body.title = "" then .error (400, "Title is required")
  else
    let userIndex := users.findIdx (fun u => u.id == callerId)
    if h : userIndex < users.length then
      let caller := users.get ⟨userIndex, h⟩
      let newTask : Task :=
        { id := freshId
          title := jsTrim body.title
          subTasks := []
          percentage := 0
          date := jsOrDefault body.date todayDate
          time := jsOrDefault body.time nowTime
          icon := match body.icon with
            | some s => if s.isEmpty then none else some s
            | none => none }
      .ok (users.set userIndex { caller with tasks := caller.tasks ++ [newTask] },
        newTask)
    else .error (500, "Failed to create task")

/-- The body of the `PUT` handler once the task is located (source lines
272–302): merge the body over the stored task keeping the stored `id`,
take `updates.subTasks || originalTask.subTasks`, normalize every subtask,
recompute the percentage. -/
def mergeTask (originalTask : Task) (body : UpdateBody) (freshIds : Nat → String) :
    Task :=
  let rawSubs : List RawSubTask :=
    match body.subTasks with
    | some l => l
    | none => originalTask.subTasks.map SubTask.toRaw
  let newSubs := normalizeSubTasks freshIds 0 rawSubs
  { id := originalTask.id
    title := body.title.getD originalTask.title
    subTasks := newSubs
    percentage := calculatePercentage newSubs
    date := body.date.getD originalTask.date
    time := body.time.getD originalTask.time
    icon := match body.icon with
      | some s => some s
      | none => originalTask.icon }

/-- `PUT /api/tasks/:id`: locate the task, apply `mergeTask`, store the
result. -/
def serverUpdateTask (users : List User) (callerId taskId : String)
    (body : UpdateBody) (freshIds : Nat → String) :
    Except (Nat × String) (List User × Task) :=
  let userIndex := users.findIdx (fun u => u.id == callerId)
  if h : userIndex < users.length then
    let caller := users.get ⟨userIndex, h⟩
    let taskIndex := caller.tasks.findIdx (fun t => t.id == taskId)
    if ht : taskIndex < caller.tasks.length then
      let originalTask := caller.tasks.get ⟨taskIndex, ht⟩
      let updatedTask := mergeTask originalTask body freshIds
      .ok (users.set userIndex
            { caller with tasks := caller.tasks.set taskIndex updatedTask },
        updatedTask)
    else .error (404, "Task not found")
  else .error (500, "Failed to update task")

/-- The persisted store after a `PUT` request: `writeUsers` runs only on
the success path, so an error leaves the file as it was. -/
def applyUpdateTask (users : List User) (callerId taskId : String)
    (body : UpdateBody) (freshIds : Nat → String) : List User :=
  match serverUpdateTask users callerId taskId body freshIds with
  | .ok (users', _) => users'
  | .error _ => users

/-- `DELETE /api/tasks/:id`: locate the task among the caller's, splice it
out; 404 when absent (before any write). -/
def serverDeleteTask (users : List User) (callerId taskId : String) :
    Except (Nat × String) (List User) :=
  let userIndex := users.findIdx (fun u => u.id == callerId)
  if h : userIndex < users.length then
    let caller := users.get ⟨userIndex, h⟩
    let taskIndex := caller.tasks.findIdx (fun t => t.id == taskId)
    if taskIndex < caller.tasks.length then
      .ok (users.set userIndex
        { caller with tasks := caller.tasks.eraseIdx taskIndex })
    else .error (404, "Task not found")
  else .error (500, "Failed to delete task")

/-- The persisted store after a `DELETE` request: `writeUsers` runs only on
the success path, so an error leaves the file as it was. -/
def applyDeleteTask (users : List User) (callerId taskId : String) : List User :=
  match serverDeleteTask users callerId taskId with
  | .ok users' => users'
  | .error _ => users

/-! ## Well-formedness of stored data

Every subtask the server ever persists went through the normalization map,
and every persisted task got its percentage from `calculatePercentage`;
these predicates record that shape. -/

/-- A subtask in persisted shape: non-empty id, trimmed title and
description. -/
def SubTask.normalized (st : SubTask) : Prop :=
  st.id ≠ "" ∧ st.title = jsTrim st.title ∧ st.description = jsTrim st.description

/-- A task in persisted shape: normalized subtasks and cached percentage
agreeing with its subtask list. -/
def Task.wellFormed (t : Task) : Prop :=
  (∀ st ∈ t.subTasks, st.normalized) ∧ t.percentage = calculatePercentage t.subTasks

/-! ## Client derivation: progress circle color (`CircularProgress.tsx`) -/

/-- Stroke color class of the progress circle:
`percentage > 50 ? "text-green-600 ..." : "text-red-600 ..."`. -/
def progressColorClass (percentage : Int) : String :=
  if percentage > 50 then "text-green-600 dark:text-green-500"
  else "text-red-600 dark:text-red-500"

/-! ## Concrete demonstration data (used by the closed witness statements) -/

/-- A user with no tasks. -/
def demoUser : User :=
  { id := "1", email := "a@b.c", password := "pw", name := none, tasks := [] }

/-- A stored task with one completed and one open subtask (percentage
`round(100 * 1 / 2) = 50`). -/
def demoTask : Task :=
  { id := "t1", title := "groceries"
    subTasks := [⟨"s1", "milk", "2l", true⟩, ⟨"s2", "eggs", "a dozen", false⟩]
    percentage := 50, date := "2026-01-01", time := "09:00", icon := none }

/-- A one-user store whose user owns `demoTask`. -/
def demoStore : List User := [{ demoUser with tasks := [demoTask] }]

/-- An update body carrying a client-chosen `id` (to be discarded), and one
subtask submitted without an id, with an untrimmed title and a `"yes"`
completed flag. -/
def demoUpdateBody : UpdateBody :=
  { id := some "evil", title := none, date := none, time := none, icon := none
    percentage := none
    subTasks := some [{ id := none, title := some " milk ", description := none,
                        completed := .jstr "yes" }] }

/-- An update body that mentions no field except a client-chosen `id`. -/
def demoEmptyBody : UpdateBody :=
  { id := some "evil", title := none, date := none, time := none, icon := none
    percentage := none, subTasks := none }

/-- A deterministic stand-in for the stream of `crypto.randomUUID()` values
the update handler draws from. -/
def demoFresh (k : Nat) : String := "uuid-" ++ toString k

/-- A create body with an untrimmed title. -/
def demoCreateBody : CreateBody :=
  { title := "  buy milk ", date := none, time := none, icon := none }

/-- The task `POST /api/tasks` builds from `demoCreateBody` with fresh id
`"u1"` and defaults `"d"`/`"t"`. -/
def demoCreatedTask : Task :=
  { id := "u1", title := "buy milk", subTasks := [], percentage := 0,
    date := "d", time := "t", icon := none }

/-- The store after creating `demoCreatedTask` in `demoStore`. -/
def demoStoreAfterCreate : List User :=
  [{ demoUser with tasks := [demoTask, demoCreatedTask] }]

/-- The task the `PUT` handler persists for `demoUpdateBody`. -/
def demoUpdatedTask : Task := mergeTask demoTask demoUpdateBody demoFresh

/-- The store after updating `demoTask` with `demoUpdateBody`. -/
def demoStoreAfterUpdate : List User :=
  [{ demoUser with tasks := [demoUpdatedTask] }]

/-- The task the `PUT` handler persists for the field-less
`demoEmptyBody`. -/
def demoEmptyUpdatedTask : Task := mergeTask demoTask demoEmptyBody demoFresh

/-- The store after updating `demoTask` with `demoEmptyBody`. -/
def demoStoreAfterEmptyUpdate : List User :=
  [{ demoUser with tasks := [demoEmptyUpdatedTask] }]

/-- The store after deleting `demoTask`. -/
def demoStoreAfterDelete : List User := [{ demoUser with tasks := [] }]

/-- Forty subtasks of which the first 23 are completed: an input where the
program's double-precision percentage departs from exact rounding. -/
def demo40 : List SubTask :=
  List.replicate 23 ⟨"s", "t", "d", true⟩ ++ List.replicate 17 ⟨"s", "t", "d", false⟩

/-- An update body submitting `demo40` as the new subtask list. -/
def demo40Body : UpdateBody :=
  { id := none, title := none, date := none, time := none, icon := none,
    percentage := none, subTasks := some (demo40.map SubTask.toRaw) }

/-! # Helper lemmas -/

/-! ## Base64 round trip -/

theorem charToSextet_sextetToChar :
    ∀ s : Nat, s < 64 → charToSextet (sextetToChar s) = s := by decide

theorem sextetToChar_ne_pad : ∀ s : Nat, s < 64 → sextetToChar s ≠ '=' := by decide

theorem encodeChunks_lt_64 :
    ∀ l : List Nat, (∀ b ∈ l, b < 256) → ∀ x ∈ encodeChunks l, x < 64
  | [], _, x, hx => by simp [encodeChunks] at hx
  | [a], h, x, hx => by
      have ha := h a (by simp)
      simp only [encodeChunks, List.mem_cons, List.not_mem_nil, or_false] at hx
      rcases hx with rfl | rfl <;> omega
  | [a, b], h, x, hx => by
      have ha := h a (by simp)
      have hb := h b (by simp)
      simp only [encodeChunks, List.mem_cons, List.not_mem_nil, or_false] at hx
      rcases hx with rfl | rfl | rfl <;> omega
  | a :: b :: c :: rest, h, x, hx => by
      have ha := h a (by simp)
      have hb := h b (by simp)
      have hc := h c (by simp)
      have ih := encodeChunks_lt_64 rest
        (fun y hy => h y (by simp [List.mem_cons, hy]))
      simp only [encodeChunks, List.mem_cons] at hx
      rcases hx with rfl | rfl | rfl | rfl | hx
      · omega
      · omega
      · omega
      · omega
      · exact ih x hx

theorem decodeChunks_encodeChunks :
    ∀ l : List Nat, (∀ b ∈ l, b < 256) → decodeChunks (encodeChunks l) = l
  | [], _ => rfl
  | [a], h => by
      have ha := h a (by simp)
      show decodeChunks [a / 4, a % 4 * 16] = [a]
      simp only [decodeChunks, List.cons.injEq, and_true]
      omega
  | [a, b], h => by
      have ha := h a (by simp)
      have hb := h b (by simp)
      show decodeChunks [a / 4, a % 4 * 16 + b / 16, b % 16 * 4] = [a, b]
      simp only [decodeChunks, List.cons.injEq, and_true]
      constructor <;> omega
  | a :: b :: c :: rest, h => by
      have ha := h a (by simp)
      have hb := h b (by simp)
      have hc := h c (by simp)
      have ih := decodeChunks_encodeChunks rest
        (fun y hy => h y (by simp [List.mem_cons, hy]))
      show decodeChunks (a / 4 :: (a % 4 * 16 + b / 16) :: (b % 16 * 4 + c / 64) ::
        c % 64 :: encodeChunks rest) = a :: b :: c :: rest
      simp only [decodeChunks, ih, List.cons.injEq, and_true]
      refine ⟨by omega, by omega, by omega⟩

theorem filter_pad_map_sextetToChar (l : List Nat) (h : ∀ x ∈ l, x < 64) (k : Nat) :
    (l.map sextetToChar ++ List.replicate k '=').filter (fun c => c ≠ '=')
      = l.map sextetToChar := by
  rw [List.filter_append]
  have h1 : (l.map sextetToChar).filter (fun c => c ≠ '=') = l.map sextetToChar := by
    apply List.filter_eq_self.mpr
    intro c hc
    obtain ⟨x, hx, rfl⟩ := List.mem_map.mp hc
    simpa using sextetToChar_ne_pad x (h x hx)
  have h2 : (List.replicate k '=').filter (fun c => c ≠ '=') = [] := by
    induction k with
    | zero => rfl
    | succ n ih => simp [List.replicate_succ, ih]
  rw [h1, h2, List.append_nil]

theorem map_charToSextet_map_sextetToChar (l : List Nat) (h : ∀ x ∈ l, x < 64) :
    (l.map sextetToChar).map charToSextet = l := by
  induction l with
  | nil => rfl
  | cons a t ih =>
      simp only [List.map_cons, List.cons.injEq]
      exact ⟨charToSextet_sextetToChar a (h a (by simp)),
        ih (fun x hx => h x (by simp [hx]))⟩

/-- The base64 codec round-trips on byte lists. -/
theorem b64decode_b64encode (l : List Nat) (h : ∀ b ∈ l, b < 256) :
    b64decodeChars (b64encodeChars l) = l := by
  unfold b64encodeChars b64decodeChars
  rw [filter_pad_map_sextetToChar _ (encodeChunks_lt_64 l h),
    map_charToSextet_map_sextetToChar _ (encodeChunks_lt_64 l h),
    decodeChunks_encodeChunks l h]

/-! ## Splitting the decoded token -/

theorem takeWhile_append_stop (p : Nat → Bool) (x : Nat) (hx : p x = false) :
    ∀ (l1 l2 : List Nat), (∀ b ∈ l1, p b = true) →
      (l1 ++ x :: l2).takeWhile p = l1
  | [], l2, _ => by simp [List.takeWhile_cons, hx]
  | a :: t, l2, h => by
      have ha := h a (by simp)
      simp only [List.cons_append, List.takeWhile_cons, ha, if_true, List.cons.injEq,
        true_and]
      exact takeWhile_append_stop p x hx t l2 (fun b hb => h b (by simp [hb]))

theorem natToDecBytes_lt_256 (n : Nat) : ∀ b ∈ natToDecBytes n, b < 256 := by
  rw [natToDecBytes]
  split
  · intro b hb
    simp only [List.mem_singleton] at hb
    omega
  · intro b hb
    rw [List.mem_append] at hb
    rcases hb with hb | hb
    · exact natToDecBytes_lt_256 (n / 10) b hb
    · simp only [List.mem_singleton] at hb
      omega
termination_by n
decreasing_by exact Nat.div_lt_self (by omega) (by omega)

/-- Decoding an issued token recovers the embedded user id: the decode
stops at the first `':'`, so neither the timestamp nor the nonce is ever
looked at. -/
theorem sessionDecode_generate (userId : String) (ts : Nat) (randomHex : List Nat)
    (hid : ∀ b ∈ strBytes userId, b < 256)
    (hcolon : (58 : Nat) ∉ strBytes userId)
    (hrand : ∀ b ∈ randomHex, b < 256) :
    sessionDecodeUserId (generateSessionToken userId ts randomHex)
      = strBytes userId := by
  unfold generateSessionToken sessionDecodeUserId
  rw [b64decode_b64encode]
  · refine takeWhile_append_stop _ 58 ?_ _ _ ?_
    · decide
    · intro b hb
      exact decide_eq_true fun he => hcolon (he ▸ hb)
  · intro b hb
    rcases List.mem_append.mp hb with hb | hb
    · exact hid b hb
    · rcases List.mem_cons.mp hb with rfl | hb
      · omega
      · rcases List.mem_append.mp hb with hb | hb
        · exact natToDecBytes_lt_256 ts b hb
        · rcases List.mem_cons.mp hb with rfl | hb
          · omega
          · exact hrand b hb

/-! ## Store lookup after an in-place update -/

theorem find?_set_findIdx {α : Type} (p : α → Bool) (v : α) :
    ∀ (l : List α), l.findIdx p < l.length → p v = true →
      (l.set (l.findIdx p) v).find? p = some v
  | [], h, _ => by simp at h
  | a :: t, h, hv => by
      by_cases hpa : p a
      · simp [List.findIdx_cons, hpa, List.find?_cons, hv]
      · have hidx : (a :: t).findIdx p = t.findIdx p + 1 := by
          simp [List.findIdx_cons, hpa]
        rw [hidx] at h ⊢
        simp only [List.set_cons_succ, List.find?_cons_of_neg _ hpa]
        exact find?_set_findIdx p v t (by simpa using h) hv

theorem find?_eq_getElem?_findIdx {α : Type} (p : α → Bool) :
    ∀ (l : List α), l.findIdx p < l.length → l.find? p = l[l.findIdx p]?
  | [], h => by simp at h
  | a :: t, h => by
      by_cases hpa : p a
      · simp [List.findIdx_cons, hpa, List.find?_cons]
      · have hidx : (a :: t).findIdx p = t.findIdx p + 1 := by
          simp [List.findIdx_cons, hpa]
        rw [hidx] at h ⊢
        rw [List.find?_cons_of_neg _ hpa, List.getElem?_cons_succ]
        exact find?_eq_getElem?_findIdx p t (by simpa using h)

/-! ## Removing the found index -/

theorem eraseIdx_append_cons {α : Type} (x : α) (l2 : List α) :
    ∀ (l1 : List α), (l1 ++ x :: l2).eraseIdx l1.length = l1 ++ l2
  | [] => by simp
  | a :: t => by
      simp only [List.cons_append, List.length_cons, List.eraseIdx_cons_succ,
        List.cons.injEq, true_and]
      exact eraseIdx_append_cons x l2 t

theorem take_drop_findIdx {α : Type} (p : α → Bool) (l : List α)
    (h : l.findIdx p < l.length) :
    l = l.take (l.findIdx p) ++ l.get ⟨l.findIdx p, h⟩ :: l.drop (l.findIdx p + 1)
      ∧ (∀ a ∈ l.take (l.findIdx p), p a = false)
      ∧ p (l.get ⟨l.findIdx p, h⟩) = true := by
  refine ⟨?_, ?_, ?_⟩
  · conv_lhs => rw [← List.take_append_drop (l.findIdx p) l]
    rw [List.drop_eq_getElem_cons h]
    rfl
  · intro a ha
    obtain ⟨i, hi, rfl⟩ := List.getElem_of_mem ha
    have hlt : i < l.findIdx p := lt_of_lt_of_le hi (by simp [List.length_take])
    rw [List.getElem_take]
    exact List.not_of_lt_findIdx hlt
  · exact List.findIdx_getElem

/-! ## Normalization map -/

theorem normalizeSubTasks_length (freshIds : Nat → String) :
    ∀ (i : Nat) (l : List RawSubTask),
      (normalizeSubTasks freshIds i l).length = l.length
  | _, [] => rfl
  | i, st :: rest => by
      simp [normalizeSubTasks, normalizeSubTasks_length freshIds (i + 1) rest]

theorem normalizeSubTasks_getElem (freshIds : Nat → String) :
    ∀ (i : Nat) (l : List RawSubTask) (k : Nat) (hk : k < l.length),
      (normalizeSubTasks freshIds i l).get
          ⟨k, by rw [normalizeSubTasks_length]; exact hk⟩
        = normalizeSubTask (freshIds (i + k)) (l.get ⟨k, hk⟩)
  | i, st :: rest, 0, hk => by simp [normalizeSubTasks]
  | i, st :: rest, k + 1, hk => by
      have ih := normalizeSubTasks_getElem freshIds (i + 1) rest k
        (by simpa using hk)
      simp only [normalizeSubTasks, List.get_cons_succ]
      rw [ih]
      congr 2
      omega

theorem normalizeSubTasks_id_on_normalized (freshIds : Nat → String) :
    ∀ (i : Nat) (l : List SubTask), (∀ st ∈ l, st.normalized) →
      normalizeSubTasks freshIds i (l.map SubTask.toRaw) = l
  | _, [], _ => rfl
  | i, st :: rest, h => by
      obtain ⟨hid, htitle, hdesc⟩ := h st (by simp)
      have ih := normalizeSubTasks_id_on_normalized freshIds (i + 1) rest
        (fun x hx => h x (by simp [hx]))
      simp only [List.map_cons, normalizeSubTasks, ih, List.cons.injEq, and_true]
      show normalizeSubTask (freshIds i) st.toRaw = st
      unfold normalizeSubTask SubTask.toRaw
      have hne : st.id.isEmpty = false := by
        cases hemp : st.id.isEmpty
        · rfl
        · exact absurd ((String.isEmpty_iff st.id).mp hemp) hid
      simp only [hne, Bool.false_eq_true, if_false, ← htitle, ← hdesc, JVal.truthy]

/-! ## Inversion of the update and delete handlers -/

theorem serverUpdateTask_ok_inv {users : List User} {callerId taskId : String}
    {body : UpdateBody} {freshIds : Nat → String} {users' : List User} {t' : Task}
    (hok : serverUpdateTask users callerId taskId body freshIds = .ok (users', t')) :
    ∃ (h : users.findIdx (fun u => u.id == callerId) < users.length)
      (ht : (users.get ⟨users.findIdx (fun u => u.id == callerId), h⟩).tasks.findIdx
              (fun t => t.id == taskId)
            < (users.get ⟨users.findIdx (fun u => u.id == callerId), h⟩).tasks.length),
      t' = mergeTask
            ((users.get ⟨users.findIdx (fun u => u.id == callerId), h⟩).tasks.get
              ⟨(users.get ⟨users.findIdx (fun u => u.id == callerId), h⟩).tasks.findIdx
                (fun t => t.id == taskId), ht⟩) body freshIds
      ∧ users' = users.set (users.findIdx (fun u => u.id == callerId))
          { users.get ⟨users.findIdx (fun u => u.id == callerId), h⟩ with
            tasks := (users.get ⟨users.findIdx (fun u => u.id == callerId), h⟩).tasks.set
              ((users.get ⟨users.findIdx (fun u => u.id == callerId), h⟩).tasks.findIdx
                (fun t => t.id == taskId)) t' } := by
  unfold serverUpdateTask at hok
  dsimp only [] at hok
  split at hok
  · split at hok
    · simp only [Except.ok.injEq, Prod.mk.injEq] at hok
      obtain ⟨husers, ht'⟩ := hok
      exact ⟨by assumption, by assumption, ht'.symm, by rw [← husers, ht']⟩
    · exact absurd hok (by simp)
  · exact absurd hok (by simp)

theorem serverDeleteTask_ok_inv {users : List User} {callerId taskId : String}
    {users' : List User}
    (hok : serverDeleteTask users callerId taskId = .ok users') :
    ∃ (h : users.findIdx (fun u => u.id == callerId) < users.length),
      (users.get ⟨users.findIdx (fun u => u.id == callerId), h⟩).tasks.findIdx
          (fun t => t.id == taskId)
        < (users.get ⟨users.findIdx (fun u => u.id == callerId), h⟩).tasks.length
      ∧ users' = users.set (users.findIdx (fun u => u.id == callerId))
          { users.get ⟨users.findIdx (fun u => u.id == callerId), h⟩ with
            tasks := (users.get ⟨users.findIdx (fun u => u.id == callerId), h⟩).tasks.eraseIdx
              ((users.get ⟨users.findIdx (fun u => u.id == callerId), h⟩).tasks.findIdx
                (fun t => t.id == taskId)) } := by
  unfold serverDeleteTask at hok
  dsimp only [] at hok
  split at hok
  · split at hok
    · simp only [Except.ok.injEq] at hok
      exact ⟨by assumption, by assumption, hok.symm⟩
    · exact absurd hok (by simp)
  · exact absurd hok (by simp)

theorem serverCreateTask_ok_inv {users : List User} {callerId : String}
    {body : CreateBody} {fid d tm : String} {users' : List User} {t : Task}
    (hok : serverCreateTask users callerId body fid d tm = .ok (users', t)) :
    jsTrim body.title ≠ ""
    ∧ ∃ (h : users.findIdx (fun u => u.id == callerId) < users.length),
      t = { id := fid, title := jsTrim body.title, subTasks := [], percentage := 0,
            date := jsOrDefault body.date d, time := jsOrDefault body.time tm,
            icon := match body.icon with
              | some s => if s.isEmpty then none else some s
              | none => none }
      ∧ users' = users.set (users.findIdx (fun u => u.id == callerId))
          { users.get ⟨users.findIdx (fun u => u.id == callerId), h⟩ with
            tasks := (users.get ⟨users.findIdx (fun u => u.id == callerId), h⟩).tasks
              ++ [t] } := by
  unfold serverCreateTask at hok
  split at hok
  · exact absurd hok (by simp)
  · dsimp only [] at hok
    split at hok
    · simp only [Except.ok.injEq, Prod.mk.injEq] at hok
      refine ⟨by assumption, by assumption, hok.2.symm, ?_⟩
      rw [← hok.1, hok.2]
    · exact absurd hok (by simp)

/-- On a store containing the caller, the task-list read is the `tasks`
field of the first user whose id matches. -/
theorem serverGetTasks_eq_get (users : List User) (callerId : String)
    (h : users.findIdx (fun u => u.id == callerId) < users.length) :
    serverGetTasks users callerId
      = (users.get ⟨users.findIdx (fun u => u.id == callerId), h⟩).tasks := by
  unfold serverGetTasks
  rw [find?_eq_getElem?_findIdx _ _ h, List.getElem?_eq_getElem h]
  rfl

/-- The password key survives into `userObj` but not into the response. -/
theorem password_notMem_responseUser (u : User) :
    "password" ∉ (responseUser u).map Prod.fst := by
  intro hmem
  unfold responseUser setField omitField userObj at hmem
  obtain ⟨p, hp, hfst⟩ := List.mem_map.mp hmem
  obtain ⟨q, hq, hpq⟩ := List.mem_map.mp hp
  have hq' : (q.1 ≠ "password" : Bool) = true := (List.mem_filter.mp hq).2
  by_cases hc : q.1 = "tasks"
  · rw [if_pos hc] at hpq
    rw [← hpq] at hfst
    simp at hfst
  · rw [if_neg hc] at hpq
    rw [hpq] at hq'
    rw [hfst] at hq'
    simp at hq'

/-! ## Small facts about the merge -/

theorem mergeTask_id (o : Task) (b : UpdateBody) (f : Nat → String) :
    (mergeTask o b f).id = o.id := rfl

theorem mergeTask_percentage (o : Task) (b : UpdateBody) (f : Nat → String) :
    (mergeTask o b f).percentage = calculatePercentage (mergeTask o b f).subTasks := rfl

theorem mergeTask_subTasks_some (o : Task) (b : UpdateBody) (f : Nat → String)
    (raws : List RawSubTask) (hb : b.subTasks = some raws) :
    (mergeTask o b f).subTasks = normalizeSubTasks f 0 raws := by
  unfold mergeTask
  rw [hb]

theorem mergeTask_subTasks_none (o : Task) (b : UpdateBody) (f : Nat → String)
    (hb : b.subTasks = none) (hwf : ∀ st ∈ o.subTasks, st.normalized) :
    (mergeTask o b f).subTasks = o.subTasks := by
  unfold mergeTask
  rw [hb]
  exact normalizeSubTasks_id_on_normalized f 0 o.subTasks hwf

/-- Reading the task list after the caller's record was overwritten in
place: the read finds the overwritten record. -/
theorem serverGetTasks_set_tasks (users : List User) (callerId : String)
    (h : users.findIdx (fun u => u.id == callerId) < users.length)
    (newTasks : List Task) :
    serverGetTasks
        (users.set (users.findIdx (fun u => u.id == callerId))
          { users.get ⟨users.findIdx (fun u => u.id == callerId), h⟩ with
            tasks := newTasks }) callerId
      = newTasks := by
  unfold serverGetTasks
  have hpv : (fun u => u.id == callerId)
      ({ users.get ⟨users.findIdx (fun u => u.id == callerId), h⟩ with
         tasks := newTasks }) = true := by
    have hp := @List.findIdx_getElem _ (fun u => u.id == callerId) users h
    simpa using hp
  rw [find?_set_findIdx _ _ users h hpv]

theorem normalizeSubTasks_getElem? (freshIds : Nat → String) :
    ∀ (i : Nat) (l : List RawSubTask) (k : Nat),
      (normalizeSubTasks freshIds i l)[k]?
        = (l[k]?).map (fun st => normalizeSubTask (freshIds (i + k)) st)
  | _, [], k => by simp [normalizeSubTasks]
  | i, st :: rest, 0 => by simp [normalizeSubTasks]
  | i, st :: rest, k + 1 => by
      simp only [normalizeSubTasks, List.getElem?_cons_succ]
      rw [normalizeSubTasks_getElem? freshIds (i + 1) rest k]
      have harith : i + 1 + k = i + (k + 1) := by omega
      rw [harith]

/-! # Claims -/

/-- **C5** (code bug): with `rememberMe = true` the login handler sets the
session cookie `maxAge` to `1 * 24 * 60 * 60 * 1000` ms — exactly one day,
not the multi-day lifetime the claim states and not the 30 days the inline
comment announces. -/
theorem rememberMe_maxAge_is_one_day :
    loginCookieMaxAgeMs true = some 86400000
    ∧ loginCookieMaxAgeMs true ≠ some (30 * 24 * 60 * 60 * 1000) := by
  constructor
  · rfl
  · decide

/-- **C6** (counterexample): at percentage exactly 50 the progress circle
stroke is the red class, not the green one, because the code tests
`percentage > 50`. -/
theorem progressColorClass_at_50_is_red :
    progressColorClass 50 = "text-red-600 dark:text-red-500"
    ∧ progressColorClass 50 ≠ "text-green-600 dark:text-green-500" := by
  constructor
  · rfl
  · decide

/-- **C6** (amended): the color coding is a pure function of the
percentage value, red for every percentage at or below 50 and green for
every percentage strictly above 50. -/
theorem progressColorClass_threshold (p : Int) :
    (p ≤ 50 → progressColorClass p = "text-red-600 dark:text-red-500")
    ∧ (50 < p → progressColorClass p = "text-green-600 dark:text-green-500") := by
  constructor
  · intro h
    unfold progressColorClass
    rw [if_neg (by omega)]
  · intro h
    unfold progressColorClass
    rw [if_pos h]

/-- Witness for C6 at the concrete percentages 20 and 80. -/
theorem progressColorClass_threshold_witness :
    progressColorClass 20 = "text-red-600 dark:text-red-500"
    ∧ progressColorClass 80 = "text-green-600 dark:text-green-500" :=
  ⟨(progressColorClass_threshold 20).1 (by norm_num),
   (progressColorClass_threshold 80).2 (by norm_num)⟩

/-- **C9** (confirmed): decoding a token issued for a colon-free user id
returns exactly that user id (as its byte string), for every timestamp and
every nonce — so the decode validates neither and a token never expires
server-side. -/
theorem sessionToken_roundtrip (userId : String) (ts ts' : Nat)
    (randomHex randomHex' : List Nat)
    (hid : ∀ b ∈ strBytes userId, b < 256)
    (hcolon : (58 : Nat) ∉ strBytes userId)
    (hrand : ∀ b ∈ randomHex, b < 256)
    (hrand' : ∀ b ∈ randomHex', b < 256) :
    sessionDecodeUserId (generateSessionToken userId ts randomHex) = strBytes userId
    ∧ sessionDecodeUserId (generateSessionToken userId ts randomHex)
        = sessionDecodeUserId (generateSessionToken userId ts' randomHex') := by
  refine ⟨sessionDecode_generate userId ts randomHex hid hcolon hrand, ?_⟩
  rw [sessionDecode_generate userId ts randomHex hid hcolon hrand,
    sessionDecode_generate userId ts' randomHex' hid hcolon hrand']

/-- Witness for C9: user id `"1"`, two different timestamps and nonces. -/
theorem sessionToken_roundtrip_witness :
    sessionDecodeUserId (generateSessionToken "1" 5 [97, 98]) = strBytes "1"
    ∧ sessionDecodeUserId (generateSessionToken "1" 5 [97, 98])
        = sessionDecodeUserId (generateSessionToken "1" 99 [102]) :=
  sessionToken_roundtrip "1" 5 99 [97, 98] [102]
    (by decide) (by decide) (by decide) (by decide)

/-- **C10** (confirmed): a successful login response and a check-session
response carrying a user never contain the `password` field, although the
store's user object does hold the plaintext password. -/
theorem responses_omit_password (users : List User) (email pw : String)
    (rememberMe : Bool) (ts : Nat) (randomHex : List Nat)
    (cookie : Option (List Char)) (tok : List Char) (mx : Option Nat)
    (fields fields' : List (String × JField)) :
    (serverLogin users email pw rememberMe ts randomHex = .success tok mx fields →
      "password" ∉ fields.map Prod.fst)
    ∧ (checkSession cookie users = .found fields' →
      "password" ∉ fields'.map Prod.fst)
    ∧ (∀ u ∈ users, ("password", JField.str u.password) ∈ userObj u) := by
  refine ⟨?_, ?_, ?_⟩
  · intro hok
    unfold serverLogin at hok
    split at hok
    · exact absurd hok (by simp)
    · split at hok
      · exact absurd hok (by simp)
      · simp only [LoginResult.success.injEq] at hok
        rw [← hok.2.2]
        exact password_notMem_responseUser _
  · intro hok
    unfold checkSession at hok
    split at hok
    · exact absurd hok (by simp)
    · split at hok
      · exact absurd hok (by simp)
      · dsimp only [] at hok
        split at hok
        · exact absurd hok (by simp)
        · simp only [SessionCheck.found.injEq] at hok
          rw [← hok]
          exact password_notMem_responseUser _
  · intro u _
    unfold userObj
    simp

/-- Witness for C10 on the one-user demo store. -/
theorem responses_omit_password_witness :
    "password" ∉ (responseUser demoUser).map Prod.fst
    ∧ ("password", JField.str "pw") ∈ userObj demoUser :=
  ⟨(responses_omit_password [demoUser] "a@b.c" "pw" false 0 [] none
      (generateSessionToken "1" 0 []) none (responseUser demoUser) []).1 (by rfl),
   (responses_omit_password [demoUser] "a@b.c" "pw" false 0 [] none
      (generateSessionToken "1" 0 []) none [] []).2.2 demoUser (by simp)⟩

/-- **C2** (counterexample): with no session cookie the gate does answer
401, but it does not call `clearCookie` — the claim's "clears the session
cookie in all three cases" fails in case (a). -/
theorem authenticate_no_cookie_no_clear :
    authenticate none [] = .reject 401 false "Not authenticated"
    ∧ authenticate none [] ≠ .reject 401 true "Not authenticated" := by
  constructor
  · rfl
  · decide

/-- **C2** (amended): the gate answers 401 in all three failure cases; the
session cookie is cleared in cases (b) and (c) but not in case (a), where
no cookie accompanied the request; when the decoded id matches a stored
user, that full user record is attached and the request proceeds. -/
theorem authenticate_gate_cases (users : List User) (tok : List Char) (u : User) :
    authenticate none users = .reject 401 false "Not authenticated"
    ∧ (tok ≠ [] → sessionDecodeUserId tok = [] →
        authenticate (some tok) users = .reject 401 true "Invalid session token")
    ∧ (tok ≠ [] → sessionDecodeUserId tok ≠ [] →
        users.find? (fun v => strBytes v.id == sessionDecodeUserId tok) = none →
        authenticate (some tok) users = .reject 401 true "User not found")
    ∧ (tok ≠ [] → sessionDecodeUserId tok ≠ [] →
        users.find? (fun v => strBytes v.id == sessionDecodeUserId tok) = some u →
        authenticate (some tok) users = .proceed u) := by
  refine ⟨rfl, ?_, ?_, ?_⟩
  · intro htok hdec
    simp [authenticate, htok, hdec]
  · intro htok hdec hfind
    simp [authenticate, htok, hdec, hfind]
  · intro htok hdec hfind
    simp [authenticate, htok, hdec, hfind]

/-- Witness for C2 on concrete tokens: `"Og=="` decodes to `":"` (empty
user id), `"OQ=="` decodes to `"9"` (no such user), `"MTowOg=="` decodes
to `"1:0:"` (the stored user). -/
theorem authenticate_gate_cases_witness :
    authenticate (some ['O', 'g', '=', '=']) [demoUser]
        = .reject 401 true "Invalid session token"
    ∧ authenticate (some ['O', 'Q', '=', '=']) [demoUser]
        = .reject 401 true "User not found"
    ∧ authenticate (some ['M', 'T', 'o', 'w', 'O', 'g', '=', '=']) [demoUser]
        = .proceed demoUser :=
  ⟨(authenticate_gate_cases [demoUser] ['O', 'g', '=', '='] demoUser).2.1
      (by decide) (by decide),
   (authenticate_gate_cases [demoUser] ['O', 'Q', '=', '='] demoUser).2.2.1
      (by decide) (by decide) (by decide),
   (authenticate_gate_cases [demoUser] ['M', 'T', 'o', 'w', 'O', 'g', '=', '='] demoUser).2.2.2
      (by decide) (by decide) (by decide)⟩

/-- **C1** (code bug): the stored percentage is
`Math.round((completedCount / len) * 100)` computed in IEEE doubles; with
23 of 40 subtasks completed the product evaluates to the double
57.49999999999999, so the program computes — and the update handler
persists — 57, while the claimed invariant demands
`round(100 * 23 / 40) = round(57.5) = 58`. -/
theorem percentage_invariant_fails_at_23_of_40 :
    calculatePercentage demo40 = 57
    ∧ specPercentage demo40 = 58
    ∧ (calculatePercentage demo40 : ℤ) ≠ specPercentage demo40
    ∧ (mergeTask demoTask demo40Body demoFresh).percentage = 57 := by
  have h1 : calculatePercentage demo40 = 57 := by decide
  have h2 : specPercentage demo40 = 58 := by
    unfold specPercentage
    have hlen : demo40.length = 40 := by decide
    have hc : (demo40.filter (fun st => st.completed)).length = 23 := by decide
    rw [hlen, hc, if_neg (by norm_num), round_eq]
    have heq : (100 * ((23 : ℕ) : ℚ)) / ((40 : ℕ) : ℚ) + 1 / 2 = ((58 : ℤ) : ℚ) := by
      push_cast
      norm_num
    rw [heq, Int.floor_intCast]
  refine ⟨h1, h2, ?_, ?_⟩
  · rw [h1, h2]
    decide
  · decide

/-- **C3** (confirmed): for a caller present in the store and a body whose
trimmed title is non-empty, create succeeds and the immediately following
task-list read contains the created task, carrying the fresh id, the
trimmed title, `subTasks = []` and `percentage = 0`. -/
theorem create_then_list_roundtrip (users : List User) (callerId : String)
    (body : CreateBody) (fid d tm : String)
    (hcaller : ∃ u ∈ users, u.id = callerId)
    (htitle : jsTrim body.title ≠ "") :
    ∃ users' t, serverCreateTask users callerId body fid d tm = .ok (users', t)
      ∧ t ∈ serverGetTasks users' callerId
      ∧ t.id = fid ∧ t.title = jsTrim body.title
      ∧ t.subTasks = [] ∧ t.percentage = 0 := by
  have hex : ∃ u ∈ users, (fun u => u.id == callerId) u := by
    obtain ⟨u, hu, hid⟩ := hcaller
    exact ⟨u, hu, by simp [hid]⟩
  have hidx := List.findIdx_lt_length_of_exists hex
  obtain ⟨users', t, hcr⟩ :
      ∃ users' t, serverCreateTask users callerId body fid d tm = .ok (users', t) := by
    unfold serverCreateTask
    rw [if_neg htitle]
    dsimp only []
    rw [dif_pos hidx]
    exact ⟨_, _, rfl⟩
  obtain ⟨-, h2, ht, husers'⟩ := serverCreateTask_ok_inv hcr
  refine ⟨users', t, hcr, ?_, by rw [ht], by rw [ht], by rw [ht], by rw [ht]⟩
  rw [husers', serverGetTasks_set_tasks users callerId h2]
  simp

/-- Witness for C3: creating in the demo store and reading back. -/
theorem create_then_list_roundtrip_witness :
    ∃ users' t,
      serverCreateTask demoStore "1" demoCreateBody "u1" "d" "t" = .ok (users', t)
      ∧ t ∈ serverGetTasks users' "1"
      ∧ t.id = "u1" ∧ t.title = jsTrim "  buy milk "
      ∧ t.subTasks = [] ∧ t.percentage = 0 :=
  create_then_list_roundtrip demoStore "1" demoCreateBody "u1" "d" "t"
    (by decide) (by decide)

/-- **C4** (confirmed): when the update body carries a `subTasks` array,
each persisted subtask is the normalization of the submitted one: a
subtask submitted without an `id` gets the freshly generated id for its
position, `title`/`description` are trimmed when present and default to
`""` when absent, and `completed` is coerced with JS truthiness — in
particular the non-boolean `"yes"` becomes `true`. -/
theorem update_normalizes_subtasks (users : List User) (callerId taskId : String)
    (body : UpdateBody) (freshIds : Nat → String) (raws : List RawSubTask)
    (users' : List User) (t' : Task)
    (hbody : body.subTasks = some raws)
    (hok : serverUpdateTask users callerId taskId body freshIds = .ok (users', t')) :
    t'.subTasks.length = raws.length
    ∧ ∀ k, (hk : k < raws.length) →
        ((raws.get ⟨k, hk⟩).id = none →
          (t'.subTasks[k]?).map SubTask.id = some (freshIds k))
        ∧ (∀ s, (raws.get ⟨k, hk⟩).title = some s →
            (t'.subTasks[k]?).map SubTask.title = some (jsTrim s))
        ∧ ((raws.get ⟨k, hk⟩).title = none →
            (t'.subTasks[k]?).map SubTask.title = some "")
        ∧ (∀ s, (raws.get ⟨k, hk⟩).description = some s →
            (t'.subTasks[k]?).map SubTask.description = some (jsTrim s))
        ∧ ((raws.get ⟨k, hk⟩).description = none →
            (t'.subTasks[k]?).map SubTask.description = some "")
        ∧ (t'.subTasks[k]?).map SubTask.completed
            = some (raws.get ⟨k, hk⟩).completed.truthy
        ∧ ((raws.get ⟨k, hk⟩).completed = JVal.jstr "yes" →
            (t'.subTasks[k]?).map SubTask.completed = some true) := by
  obtain ⟨h, ht, ht', -⟩ := serverUpdateTask_ok_inv hok
  have hsub : t'.subTasks = normalizeSubTasks freshIds 0 raws := by
    rw [ht']
    exact mergeTask_subTasks_some _ _ _ _ hbody
  have hlen : t'.subTasks.length = raws.length := by
    rw [hsub, normalizeSubTasks_length]
  refine ⟨hlen, ?_⟩
  intro k hk
  have hget : t'.subTasks[k]? = some (normalizeSubTask (freshIds k) (raws.get ⟨k, hk⟩)) := by
    rw [hsub, normalizeSubTasks_getElem? freshIds 0 raws k, Nat.zero_add,
      List.getElem?_eq_getElem hk]
    rfl
  rw [hget]
  refine ⟨?_, ?_, ?_, ?_, ?_, ?_, ?_⟩
  · intro hid
    unfold normalizeSubTask
    rw [hid]
    rfl
  · intro s hs
    unfold normalizeSubTask
    rw [hs]
    rfl
  · intro hs
    unfold normalizeSubTask
    rw [hs]
    rfl
  · intro s hs
    unfold normalizeSubTask
    rw [hs]
    rfl
  · intro hs
    unfold normalizeSubTask
    rw [hs]
    rfl
  · rfl
  · intro hc
    unfold normalizeSubTask
    rw [hc]
    rfl

/-- Witness for C4: one subtask submitted without an id, with an untrimmed
title and `completed = "yes"`, against the demo store. -/
theorem update_normalizes_subtasks_witness :
    (demoUpdatedTask.subTasks[0]?).map SubTask.id = some (demoFresh 0)
    ∧ (demoUpdatedTask.subTasks[0]?).map SubTask.title = some (jsTrim " milk ")
    ∧ (demoUpdatedTask.subTasks[0]?).map SubTask.completed = some true := by
  obtain ⟨-, hall⟩ := update_normalizes_subtasks demoStore "1" "t1" demoUpdateBody
    demoFresh
    [{ id := none, title := some " milk ", description := none,
       completed := JVal.jstr "yes" }]
    demoStoreAfterUpdate demoUpdatedTask rfl (by rfl)
  obtain ⟨h1, h2, -, -, -, -, h7⟩ := hall 0 (by norm_num)
  exact ⟨h1 rfl, h2 " milk " rfl, h7 rfl⟩

/-- **C7** (confirmed): deleting an id absent from the caller's list
answers `404 Task not found` and leaves the store unchanged, so a second
identical delete answers 404 again; deleting a present id removes exactly
the first task bearing that id and keeps every other task. -/
theorem delete_semantics (users : List User) (callerId taskId : String)
    (hcaller : ∃ u ∈ users, u.id = callerId) :
    ((∀ t ∈ serverGetTasks users callerId, t.id ≠ taskId) →
        serverDeleteTask users callerId taskId = .error (404, "Task not found")
        ∧ applyDeleteTask users callerId taskId = users
        ∧ serverDeleteTask (applyDeleteTask users callerId taskId) callerId taskId
            = .error (404, "Task not found"))
    ∧ (∀ users', serverDeleteTask users callerId taskId = .ok users' →
        ∃ l1 tsk l2, serverGetTasks users callerId = l1 ++ tsk :: l2
          ∧ tsk.id = taskId ∧ (∀ t ∈ l1, t.id ≠ taskId)
          ∧ serverGetTasks users' callerId = l1 ++ l2) := by
  have hex : ∃ u ∈ users, (fun u => u.id == callerId) u := by
    obtain ⟨u, hu, hid⟩ := hcaller
    exact ⟨u, hu, by simp [hid]⟩
  have hidx := List.findIdx_lt_length_of_exists hex
  constructor
  · intro habsent
    have htasks := serverGetTasks_eq_get users callerId hidx
    have hnone : (users.get ⟨users.findIdx (fun u => u.id == callerId), hidx⟩).tasks.findIdx
          (fun t => t.id == taskId)
        = (users.get ⟨users.findIdx (fun u => u.id == callerId), hidx⟩).tasks.length := by
      apply List.findIdx_eq_length_of_false
      intro t htmem
      have := habsent t (by rw [htasks]; exact htmem)
      simp [this]
    have herr : serverDeleteTask users callerId taskId = .error (404, "Task not found") := by
      unfold serverDeleteTask
      dsimp only []
      rw [dif_pos hidx, if_neg (by rw [hnone]; omega)]
    have happ : applyDeleteTask users callerId taskId = users := by
      unfold applyDeleteTask
      rw [herr]
    refine ⟨herr, happ, ?_⟩
    rw [happ]
    exact herr
  · intro users' hok
    obtain ⟨h, htlt, husers'⟩ := serverDeleteTask_ok_inv hok
    have htasks := serverGetTasks_eq_get users callerId h
    obtain ⟨hdecomp, hfalse, htrue⟩ := take_drop_findIdx (fun t => t.id == taskId)
      (users.get ⟨users.findIdx (fun u => u.id == callerId), h⟩).tasks htlt
    refine ⟨_, _, _, by rw [htasks]; exact hdecomp, by simpa using htrue,
      fun t htm => by simpa using hfalse t htm, ?_⟩
    rw [husers', serverGetTasks_set_tasks users callerId h]
    rw [List.eraseIdx_eq_take_drop_succ]

/-- Witness for C7: deleting the absent id `"zzz"` twice, and deleting the
present id `"t1"`, on the demo store. -/
theorem delete_semantics_witness :
    (serverDeleteTask demoStore "1" "zzz" = .error (404, "Task not found")
      ∧ applyDeleteTask demoStore "1" "zzz" = demoStore
      ∧ serverDeleteTask (applyDeleteTask demoStore "1" "zzz") "1" "zzz"
          = .error (404, "Task not found"))
    ∧ ∃ l1 tsk l2, serverGetTasks demoStore "1" = l1 ++ tsk :: l2
        ∧ tsk.id = "t1" ∧ (∀ t ∈ l1, t.id ≠ "t1")
        ∧ serverGetTasks demoStoreAfterDelete "1" = l1 ++ l2 :=
  ⟨(delete_semantics demoStore "1" "zzz" (by decide)).1 (by decide),
   (delete_semantics demoStore "1" "t1" (by decide)).2 demoStoreAfterDelete (by rfl)⟩

/-- **C8** (confirmed): the body is quantified over arbitrary contents —
including any client-chosen `id` — yet the persisted task keeps the stored
task's `id`; every scalar field the body does not mention keeps its stored
value; when the body omits `subTasks`, a task in persisted shape keeps its
subtask list and cached percentage unchanged; and an absent task id makes
the operation fail with `404 Task not found` leaving the store as it
was. -/
theorem update_merge_semantics (users : List User) (callerId taskId : String)
    (body : UpdateBody) (freshIds : Nat → String) :
    ((∃ u ∈ users, u.id = callerId) →
      (∀ t ∈ serverGetTasks users callerId, t.id ≠ taskId) →
        serverUpdateTask users callerId taskId body freshIds
          = .error (404, "Task not found")
        ∧ applyUpdateTask users callerId taskId body freshIds = users)
    ∧ (∀ users' t',
        serverUpdateTask users callerId taskId body freshIds = .ok (users', t') →
        ∃ orig, orig ∈ serverGetTasks users callerId ∧ orig.id = taskId
          ∧ t'.id = orig.id
          ∧ (body.title = none → t'.title = orig.title)
          ∧ (body.date = none → t'.date = orig.date)
          ∧ (body.time = none → t'.time = orig.time)
          ∧ (body.icon = none → t'.icon = orig.icon)
          ∧ (body.subTasks = none → (∀ st ∈ orig.subTasks, st.normalized) →
              t'.subTasks = orig.subTasks)
          ∧ (body.subTasks = none → orig.wellFormed →
              t'.percentage = orig.percentage)) := by
  constructor
  · intro hcaller habsent
    have hex : ∃ u ∈ users, (fun u => u.id == callerId) u := by
      obtain ⟨u, hu, hid⟩ := hcaller
      exact ⟨u, hu, by simp [hid]⟩
    have hidx := List.findIdx_lt_length_of_exists hex
    have htasks := serverGetTasks_eq_get users callerId hidx
    have hnone : (users.get ⟨users.findIdx (fun u => u.id == callerId), hidx⟩).tasks.findIdx
          (fun t => t.id == taskId)
        = (users.get ⟨users.findIdx (fun u => u.id == callerId), hidx⟩).tasks.length := by
      apply List.findIdx_eq_length_of_false
      intro t htmem
      have := habsent t (by rw [htasks]; exact htmem)
      simp [this]
    have herr : serverUpdateTask users callerId taskId body freshIds
        = .error (404, "Task not found") := by
      unfold serverUpdateTask
      dsimp only []
      rw [dif_pos hidx, dif_neg (by rw [hnone]; omega)]
    refine ⟨herr, ?_⟩
    unfold applyUpdateTask
    rw [herr]
  · intro users' t' hok
    obtain ⟨h, ht, ht', -⟩ := serverUpdateTask_ok_inv hok
    have htasks := serverGetTasks_eq_get users callerId h
    have hmem : (users.get ⟨users.findIdx (fun u => u.id == callerId), h⟩).tasks.get
        ⟨(users.get ⟨users.findIdx (fun u => u.id == callerId), h⟩).tasks.findIdx
          (fun t => t.id == taskId), ht⟩ ∈ serverGetTasks users callerId := by
      rw [htasks]
      exact List.get_mem _ _ _
    have hpid : ((users.get ⟨users.findIdx (fun u => u.id == callerId), h⟩).tasks.get
        ⟨(users.get ⟨users.findIdx (fun u => u.id == callerId), h⟩).tasks.findIdx
          (fun t => t.id == taskId), ht⟩).id = taskId := by
      have hp := @List.findIdx_getElem _ (fun (t : Task) => t.id == taskId)
        (users.get ⟨users.findIdx (fun u => u.id == callerId), h⟩).tasks ht
      simpa using hp
    refine ⟨_, hmem, hpid, ?_, ?_, ?_, ?_, ?_, ?_, ?_⟩
    · rw [ht']
      exact mergeTask_id _ _ _
    · intro hb
      rw [ht']
      unfold mergeTask
      rw [hb]
      try rfl
    · intro hb
      rw [ht']
      unfold mergeTask
      rw [hb]
      try rfl
    · intro hb
      rw [ht']
      unfold mergeTask
      rw [hb]
      try rfl
    · intro hb
      rw [ht']
      unfold mergeTask
      rw [hb]
      try rfl
    · intro hb hnorm
      rw [ht']
      exact mergeTask_subTasks_none _ _ _ hb hnorm
    · intro hb hwf
      rw [ht', mergeTask_percentage, mergeTask_subTasks_none _ _ _ hb hwf.1]
      exact hwf.2.symm

/-- Witness for C8: the field-less `demoEmptyBody` (which still tries to
smuggle `id := "evil"`) against the present id `"t1"` and the absent id
`"zzz"`. -/
theorem update_merge_semantics_witness :
    (serverUpdateTask demoStore "1" "zzz" demoEmptyBody demoFresh
        = .error (404, "Task not found")
      ∧ applyUpdateTask demoStore "1" "zzz" demoEmptyBody demoFresh = demoStore)
    ∧ ∃ orig, orig ∈ serverGetTasks demoStore "1" ∧ orig.id = "t1"
        ∧ demoEmptyUpdatedTask.id = orig.id
        ∧ (demoEmptyBody.title = none → demoEmptyUpdatedTask.title = orig.title)
        ∧ (demoEmptyBody.date = none → demoEmptyUpdatedTask.date = orig.date)
        ∧ (demoEmptyBody.time = none → demoEmptyUpdatedTask.time = orig.time)
        ∧ (demoEmptyBody.icon = none → demoEmptyUpdatedTask.icon = orig.icon)
        ∧ (demoEmptyBody.subTasks = none → (∀ st ∈ orig.subTasks, st.normalized) →
            demoEmptyUpdatedTask.subTasks = orig.subTasks)
        ∧ (demoEmptyBody.subTasks = none → orig.wellFormed →
            demoEmptyUpdatedTask.percentage = orig.percentage) :=
  ⟨(update_merge_semantics demoStore "1" "zzz" demoEmptyBody demoFresh).1
      (by decide) (by decide),
   (update_merge_semantics demoStore "1" "t1" demoEmptyBody demoFresh).2
      demoStoreAfterEmptyUpdate demoEmptyUpdatedTask (by rfl)⟩

end Todo
